import Mathlib

/-!
Verification of `sleap/nn/data.py` (training-data generation for pose estimation).

The source operates on float32 tensors.  We model a scalar float value as
either NaN or an (exact) real number; finite-precision rounding is idealized
away, but NaN propagation, masking and comparison semantics follow IEEE-754
as TensorFlow implements them (any comparison involving NaN is false,
arithmetic on NaN yields NaN, `0 * NaN = NaN`).  Infinities are not modeled:
on the code paths embedded here the only divisions are by `2 * sigma ** 2`
(nonzero under the stated hypotheses) and by an edge length, and an edge
length is zero only when the numerator is also zero, which in IEEE gives
`0/0 = NaN`, not an infinity.
-/

noncomputable section

namespace Sleap

/-- Model of one float32 scalar: NaN, or a finite value idealized as a real. -/
inductive F where
  | nan : F
  | fin : ℝ → F
deriving DecidableEq

namespace F

/-- Arithmetic: NaN is absorbing, finite values add exactly. -/
def add : F → F → F
  | fin x, fin y => fin (x + y)
  | _, _ => nan

/-- Subtraction with NaN propagation. -/
def sub : F → F → F
  | fin x, fin y => fin (x - y)
  | _, _ => nan

/-- Multiplication with NaN propagation; note `fin 0 * nan = nan` as in IEEE. -/
def mul : F → F → F
  | fin x, fin y => fin (x * y)
  | _, _ => nan

/-- Division.  A zero denominator gives NaN: in the embedded code paths a zero
denominator only occurs together with a zero numerator (edge length is zero
exactly when the displacement is zero), which is IEEE `0/0 = NaN`. -/
def div : F → F → F
  | fin x, fin y => if y = 0 then nan else fin (x / y)
  | _, _ => nan

/-- Negation with NaN propagation. -/
def neg : F → F
  | fin x => fin (-x)
  | nan => nan

/-- Absolute value with NaN propagation (models `tf.abs`). -/
def absF : F → F
  | fin x => fin |x|
  | nan => nan

/-- Square root; negative arguments give NaN as in IEEE (models `tf.sqrt`
inside `tf.linalg.norm`). -/
def sqrtF : F → F
  | fin x => if x < 0 then nan else fin (Real.sqrt x)
  | nan => nan

/-- Exponential with NaN propagation (models `tf.exp`). -/
def expF : F → F
  | fin x => fin (Real.exp x)
  | nan => nan

/-- Comparison `a <= b` as a boolean mask value: any comparison with NaN is
false (models `tf.Tensor.__le__` / `__ge__`). -/
def le : F → F → Bool
  | fin x, fin y => decide (x ≤ y)
  | _, _ => false

/-- Predicate used by `tf.math.is_nan`. -/
def isNan : F → Bool
  | nan => true
  | fin _ => false

/-- Predicate: the value is an actual (finite) number. -/
def isFinite : F → Bool
  | nan => false
  | fin _ => true

/-- Models `tf.where(tf.math.is_nan(v), 0.0, v)`. -/
def whereNanZero : F → F
  | nan => fin 0
  | fin x => fin x

instance : Zero F := ⟨F.fin 0⟩

instance : Add F := ⟨F.add⟩

instance : Sub F := ⟨F.sub⟩

instance : Mul F := ⟨F.mul⟩

instance : Div F := ⟨F.div⟩

instance : Neg F := ⟨F.neg⟩

instance : AddCommMonoid F where
  add_assoc := by
    intro a b c
    cases a with
    | nan => rfl
    | fin x =>
      cases b with
      | nan => rfl
      | fin y =>
        cases c with
        | nan => rfl
        | fin z => exact congrArg F.fin (add_assoc x y z)
  zero_add := by
    intro a
    cases a with
    | nan => rfl
    | fin x => exact congrArg F.fin (zero_add x)
  add_zero := by
    intro a
    cases a with
    | nan => rfl
    | fin x => exact congrArg F.fin (add_zero x)
  add_comm := by
    intro a b
    cases a with
    | nan => cases b <;> rfl
    | fin x =>
      cases b with
      | nan => rfl
      | fin y => exact congrArg F.fin (add_comm x y)
  nsmul := nsmulRec


end F

/-- A point: pair of float scalars in (x, y) order, as in the last axis of a
points tensor. -/
abbrev Pt : Type := F × F

/-! ### Sampling grids

Both rasterizers build their grids with `tf.range(0, limit, 1.0 / output_scale)`.
`tf.range(start, limit, delta)` produces `ceil((limit - start) / delta)` values
`start + i * delta`. -/

/-- Number of elements of `tf.range(0, limit, step)` for `step > 0`. -/
def rangeLen (limit step : ℝ) : ℕ := ⌈limit / step⌉₊

/-- The `j`-th element of `tf.range(0, limit, 1.0 / s)`: the grid coordinate of
index `j` at output scale `s`. -/
def gridVal (s : ℝ) (j : ℕ) : ℝ := (j : ℝ) * (1 / s)

/-- Height of the `make_confmaps` output: length of
`yv = tf.range(0, image_height, 1.0 / output_scale)` (source line 439). -/
def confmapsHeight (image_height : ℕ) (output_scale : ℝ) : ℕ :=
  rangeLen (image_height : ℝ) (1 / output_scale)

/-- Width of the `make_confmaps` output: length of
`xv = tf.range(0, image_width, 1.0 / output_scale)` (source line 440). -/
def confmapsWidth (image_width : ℕ) (output_scale : ℝ) : ℕ :=
  rangeLen (image_width : ℝ) (1 / output_scale)

/-- Length of axis 1 of the `make_pafs` grid.  In the source (lines 519-525),
`xv` (built from `image_width`) is reshaped to `[1, -1, 1, 1]`, so axis 1 of
the broadcast grid has the length of `xv`. -/
def pafsAxis1Len (image_width : ℕ) (output_scale : ℝ) : ℕ :=
  rangeLen (image_width : ℝ) (1 / output_scale)

/-- Length of axis 2 of the `make_pafs` grid: `yv` (built from `image_height`)
is reshaped to `[1, 1, -1, 1]`, so axis 2 has the length of `yv`. -/
def pafsAxis2Len (image_height : ℕ) (output_scale : ℝ) : ℕ :=
  rangeLen (image_height : ℝ) (1 / output_scale)

/-! ### `get_bbox_centroid` (source lines 165-189)

The source masks the `(n_instances, n_nodes, 2)` points tensor elementwise with
`tf.ragged.boolean_mask(points, tf.math.is_finite(points))`.  With a mask of
the same rank as the data, the result keeps the nested row structure and drops
masked-out elements, so row `(i, t)` becomes the list of the finite
coordinates of `points[i, t]` (possibly empty).  `tf.reduce_min(..., axis=1)`
/ `tf.reduce_max(..., axis=1)` on the ragged tensor reduce position-wise over
the node axis, skipping rows that have no element at a position; the result
row for instance `i` has length `max_t len(masked_row(i, t))`.  The centroid
rows `0.5 * (max + min)` are then densified by `.to_tensor()`, which pads
every row with `0.0` up to the length of the longest row. -/

/-- Row `(i, t)` of `tf.ragged.boolean_mask(points, tf.math.is_finite(points))`:
the finite coordinates of one landmark, in (x, y) order. -/
def maskedRow (p : Pt) : List ℝ :=
  (match p.1 with
    | F.fin x => [x]
    | F.nan => []) ++
  (match p.2 with
    | F.fin y => [y]
    | F.nan => [])

/-- The values present at position `j` of the masked rows of instance `i`
(the entries that `reduce_min`/`reduce_max` over axis 1 combine). -/
def colVals {n k : ℕ} (points : Fin n → Fin k → Pt) (i : Fin n) (j : ℕ) :
    List ℝ :=
  (List.finRange k).filterMap fun t => (maskedRow (points i t)).get? j

/-- Length of the reduced (ragged) row of instance `i`: the longest masked row
over the node axis. -/
def rowWidth {n k : ℕ} (points : Fin n → Fin k → Pt) (i : Fin n) : ℕ :=
  (((List.finRange k).map fun t => (maskedRow (points i t)).length).foldr
    max 0)

/-- Minimum of a list of reals as the ragged reduction computes it (the
base value for an empty list is never used by the reduction because positions
beyond every row length do not appear in the output). -/
def listMin : List ℝ → ℝ
  | [] => 0
  | x :: xs => xs.foldl min x

/-- Maximum of a list of reals, as `listMin`. -/
def listMax : List ℝ → ℝ
  | [] => 0
  | x :: xs => xs.foldl max x

/-- The ragged centroid row of instance `i`:
`0.5 * (pts_max + pts_min)` position-wise. -/
def centroidRow {n k : ℕ} (points : Fin n → Fin k → Pt) (i : Fin n) :
    List ℝ :=
  (List.range (rowWidth points i)).map fun j =>
    0.5 * (listMax (colVals points i j) + listMin (colVals points i j))

/-- Entry `(i, j)` of the dense output of `get_bbox_centroid`: the ragged
centroid row densified by `.to_tensor()` (zero padding).  Every masked value
is finite, so the output is a real number (never NaN). -/
def get_bbox_centroid {n k : ℕ} (points : Fin n → Fin k → Pt) (i : Fin n)
    (j : ℕ) : ℝ :=
  (centroidRow points i).getD j 0

/-- Number of columns of the dense output of `get_bbox_centroid`:
`.to_tensor()` pads all rows to the longest centroid row. -/
def centroidWidth {n k : ℕ} (points : Fin n → Fin k → Pt) : ℕ :=
  (((List.finRange n).map fun i => (centroidRow points i).length).foldr
    max 0)

/-! ### Box geometry (source lines 218-289) -/

/-- A bounding box `[y1, x1, y2, x2]` in absolute image coordinates. -/
structure Bbox where
  y1 : ℝ
  x1 : ℝ
  y2 : ℝ
  x2 : ℝ

/-- `get_centered_bboxes(centroids, box_width, box_height)`:
`tile(reverse(centroids), [1, 2]) + [[-h/2, -w/2, h/2, w/2]]`.  Centroids are
`(x, y)` pairs; reversing gives `(y, x)`. -/
def get_centered_bboxes {m : ℕ} (centroids : Fin m → ℝ × ℝ)
    (box_width box_height : ℝ) : Fin m → Bbox :=
  fun i =>
    ⟨(centroids i).2 - 0.5 * box_height, (centroids i).1 - 0.5 * box_width,
     (centroids i).2 + 0.5 * box_height, (centroids i).1 + 0.5 * box_width⟩

/-- `get_bbox_offsets(bboxes)`: `reverse(bboxes[:, :2])`, i.e. the top-left
corner as an `(x, y)` pair. -/
def get_bbox_offsets (b : Bbox) : ℝ × ℝ := (b.x1, b.y1)

/-- `pts_to_bbox(points, bboxes)`: subtract each box offset from every point,
broadcasting over boxes; output shape `(n_boxes, n_instances, n_nodes, 2)`. -/
def pts_to_bbox {n k m : ℕ} (points : Fin n → Fin k → Pt)
    (bboxes : Fin m → Bbox) : Fin m → Fin n → Fin k → Pt :=
  fun b i t =>
    ((points i t).1 - F.fin (get_bbox_offsets (bboxes b)).1,
     (points i t).2 - F.fin (get_bbox_offsets (bboxes b)).2)

/-- The round trip of claim C8: re-express the points relative to the boxes
centered on the bbox centroids,
`pts_to_bbox(points, get_centered_bboxes(get_bbox_centroid(points), w, h))`. -/
def roundTripBoxPoints {n k : ℕ} (points : Fin n → Fin k → Pt) (w h : ℝ) :
    Fin n → Fin n → Fin k → Pt :=
  pts_to_bbox points
    (get_centered_bboxes
      (fun i => (get_bbox_centroid points i 0, get_bbox_centroid points i 1))
      w h)

/-! ### `make_confmaps` (source lines 414-461)

The value of the output tensor at `[i, a, b, c]` (instance `i`, height index
`a`, width index `b`, channel `c`).  Axis 1 of the output is the height axis
(`yv` is reshaped to `[1, -1, 1, 1]`) and axis 2 the width axis (`xv` to
`[1, 1, -1, 1]`).  The spatial extents are `confmapsHeight`/`confmapsWidth`;
the value itself does not depend on `image_height`/`image_width`. -/
def make_confmaps {n k : ℕ} (points : Fin n → Fin k → Pt)
    (output_scale sigma : ℝ) (i : Fin n) (a b : ℕ) (c : Fin k) : F :=
  let dx := F.fin (gridVal output_scale b) - (points i c).1
  let dy := F.fin (gridVal output_scale a) - (points i c).2
  F.whereNanZero
    (F.expF (-(dx * dx + dy * dy) / F.fin (2 * sigma ^ 2)))

/-! ### `make_pafs` (source lines 464-591)

Indexing: `edges e = (src_node, dst_node)`.  The broadcast grid has `xv`
along axis 1 and `yv` along axis 2 (see `pafsAxis1Len`/`pafsAxis2Len`), so the
grid point at index `(a, b)` is `(gridVal s a, gridVal s b)` in (x, y).  The
output has the per-instance masked unit vectors, NaN-replaced by zero, then
summed over instances; the final reshape interleaves the (x, y) components of
each edge along the channel axis. -/

/-- Displacement of the destination point relative to the source for instance
`i` and edge `e` (`delta_points`, source line 500). -/
def deltaPt {n k E : ℕ} (points : Fin n → Fin k → Pt)
    (edges : Fin E → Fin k × Fin k) (i : Fin n) (e : Fin E) : Pt :=
  ((points i (edges e).2).1 - (points i (edges e).1).1,
   (points i (edges e).2).2 - (points i (edges e).1).2)

/-- Euclidean edge length `tf.linalg.norm(delta_points)` (source line 504). -/
def edgeLenF {n k E : ℕ} (points : Fin n → Fin k → Pt)
    (edges : Fin E → Fin k × Fin k) (i : Fin n) (e : Fin E) : F :=
  F.sqrtF
    ((deltaPt points edges i e).1 * (deltaPt points edges i e).1 +
      (deltaPt points edges i e).2 * (deltaPt points edges i e).2)

/-- Unit vector parallel to the edge (`unit_vectors`, source line 508). -/
def unitVec {n k E : ℕ} (points : Fin n → Fin k → Pt)
    (edges : Fin E → Fin k × Fin k) (i : Fin n) (e : Fin E) : Pt :=
  ((deltaPt points edges i e).1 / edgeLenF points edges i e,
   (deltaPt points edges i e).2 / edgeLenF points edges i e)

/-- Unit vector perpendicular to the edge,
`stack([-u_y, u_x])` (source lines 514-516). -/
def perpUnitVec {n k E : ℕ} (points : Fin n → Fin k → Pt)
    (edges : Fin E → Fin k × Fin k) (i : Fin n) (e : Fin E) : Pt :=
  (-(unitVec points edges i e).2, (unitVec points edges i e).1)

/-- Grid point at index `(a, b)` translated to the source point of the edge
(`source_relative_grid`, source line 539). -/
def relGrid {n k E : ℕ} (points : Fin n → Fin k → Pt)
    (edges : Fin E → Fin k × Fin k) (s : ℝ) (i : Fin n) (a b : ℕ)
    (e : Fin E) : Pt :=
  (F.fin (gridVal s a) - (points i (edges e).1).1,
   F.fin (gridVal s b) - (points i (edges e).1).2)

/-- Signed distance along the edge vector (`parallel_distance`,
source lines 543-547). -/
def parallelDistF {n k E : ℕ} (points : Fin n → Fin k → Pt)
    (edges : Fin E → Fin k × Fin k) (s : ℝ) (i : Fin n) (a b : ℕ)
    (e : Fin E) : F :=
  (unitVec points edges i e).1 * (relGrid points edges s i a b e).1 +
    (unitVec points edges i e).2 * (relGrid points edges s i a b e).2

/-- Absolute distance perpendicular to the edge vector
(`perpendicular_distance`, source lines 551-560). -/
def perpDistF {n k E : ℕ} (points : Fin n → Fin k → Pt)
    (edges : Fin E → Fin k × Fin k) (s : ℝ) (i : Fin n) (a b : ℕ)
    (e : Fin E) : F :=
  F.absF
    ((perpUnitVec points edges i e).1 * (relGrid points edges s i a b e).1 +
      (perpUnitVec points edges i e).2 * (relGrid points edges s i a b e).2)

/-- The binary PAF mask (`paf_mask`, source lines 564-572): within the
threshold band behind the source, before the destination, and around the
edge line.  Comparisons with NaN are false. -/
def pafMask {n k E : ℕ} (points : Fin n → Fin k → Pt)
    (edges : Fin E → Fin k × Fin k) (s t : ℝ) (i : Fin n) (a b : ℕ)
    (e : Fin E) : Bool :=
  F.le (F.fin (-t)) (parallelDistF points edges s i a b e) &&
    F.le (parallelDistF points edges s i a b e)
      (F.fin t + edgeLenF points edges i e) &&
    F.le (perpDistF points edges s i a b e) (F.fin t)

/-- One instance contribution to the PAF at grid index `(a, b)`, edge `e`,
vector component `c` (0 = x, 1 = y): the mask cast to float times the unit
vector, with NaNs then replaced by zero (source lines 576-581). -/
def pafInst {n k E : ℕ} (points : Fin n → Fin k → Pt)
    (edges : Fin E → Fin k × Fin k) (s t : ℝ) (i : Fin n) (a b : ℕ)
    (e : Fin E) (c : Fin 2) : F :=
  F.whereNanZero
    (F.fin (if pafMask points edges s t i a b e then 1 else 0) *
      (if c = 0 then (unitVec points edges i e).1
        else (unitVec points edges i e).2))

/-- The PAF output at grid index `(a, b)`, edge `e`, component `c`: instance
contributions are summed (`tf.reduce_sum(pafs, axis=0)`, source line 585).
The final reshape lays the value out at flat channel `2 * e + c`. -/
def make_pafs {n k E : ℕ} (points : Fin n → Fin k → Pt)
    (edges : Fin E → Fin k × Fin k) (s t : ℝ) (a b : ℕ) (e : Fin E)
    (c : Fin 2) : F :=
  ∑ i : Fin n, pafInst points edges s t i a b e c

/-! ### `make_points_dataset` (source lines 38-80) and `instance_crop`
(source lines 350-411) -/

/-- Python exception kinds raised by the modeled code. -/
inductive PyError where
  | typeError : PyError
  | attributeError : PyError
  | valueError : PyError
  | indexError : PyError
  | unboundLocalError : PyError
deriving DecidableEq

/-- The `points` argument of `make_points_dataset`: either a Python list of
arrays or a single array (`np.ndarray` / `tf.Tensor`).  An array is
represented by its shape. -/
inductive PointsInput where
  | list : List (List ℕ) → PointsInput
  | arr : List ℕ → PointsInput

/-- Shallow embedding of `make_points_dataset`.  The list branch inspects
`points[0].ndim` (an empty list raises IndexError at `points[0]`): rank-2
elements are promoted with `tf.expand_dims(p, 0)` (shape `1 :: p`), rank-3
elements pass through, any other rank raises ValueError.  The array branch
(source line 77) calls `tf.tensor_slices(points)`: TensorFlow has no
attribute `tensor_slices` (the existing API is
`tf.data.Dataset.from_tensor_slices`, used correctly in `make_image_dataset`
at line 33), so the attribute lookup raises AttributeError before any dataset
is built.  The catch-all branch raises ValueError. -/
def make_points_dataset : PointsInput → Except PyError (List (List ℕ))
  | PointsInput.list [] => Except.error PyError.indexError
  | PointsInput.list (e :: rest) =>
      if e.length = 2 then Except.ok ((e :: rest).map fun p => 1 :: p)
      else if e.length = 3 then Except.ok (e :: rest)
      else Except.error PyError.valueError
  | PointsInput.arr _ => Except.error PyError.attributeError

/-- Shallow embedding of `instance_crop`.  The source (lines 397-403) computes
the bounding boxes, translated points and crops only inside the
`else`-branch of `if use_ctr_node:`, and there calls
`get_centered_bboxes(centroids, (box_height, box_width))` — but
`get_centered_bboxes` (line 218) takes three positional arguments
`(centroids, box_width, box_height)`, so the call raises TypeError (missing
required positional argument `box_height`) before anything is produced; the
same applies to the `crop_bboxes` call on line 403.  When `use_ctr_node` is
true, execution falls through to line 406, which reads `instance_points`, a
variable bound only in the `else` branch, raising UnboundLocalError.  Hence
no execution path reaches the documented return value and the function is
modeled as always raising. -/
def instance_crop {n k : ℕ} (points : Fin n → Fin k → Pt)
    (box_height box_width : ℕ) (use_ctr_node : Bool) (ctr_node_ind : ℕ) :
    Except PyError Unit :=
  if use_ctr_node then Except.error PyError.unboundLocalError
  else Except.error PyError.typeError

/-! ### Real-level PAF vocabulary

Named real-number formulas used to state the PAF claims: the Euclidean edge
length, the unit vector parallel to the edge (source to destination), and the
signed parallel / absolute perpendicular distances of a grid point from the
source along that vector. -/

/-- Euclidean length of the edge from `(x0, y0)` to `(x1, y1)`. -/
def edgeLenR (x0 y0 x1 y1 : ℝ) : ℝ :=
  Real.sqrt ((x1 - x0) * (x1 - x0) + (y1 - y0) * (y1 - y0))

/-- X component of the unit vector parallel to the edge. -/
def unitXR (x0 y0 x1 y1 : ℝ) : ℝ := (x1 - x0) / edgeLenR x0 y0 x1 y1

/-- Y component of the unit vector parallel to the edge. -/
def unitYR (x0 y0 x1 y1 : ℝ) : ℝ := (y1 - y0) / edgeLenR x0 y0 x1 y1

/-- Signed distance of the grid point `(gx, gy)` from the source along the
edge direction (projection onto the parallel unit vector). -/
def parallelDistR (x0 y0 x1 y1 gx gy : ℝ) : ℝ :=
  unitXR x0 y0 x1 y1 * (gx - x0) + unitYR x0 y0 x1 y1 * (gy - y0)

/-- Absolute distance of the grid point `(gx, gy)` from the edge line
(projection onto the perpendicular unit vector). -/
def perpDistR (x0 y0 x1 y1 gx gy : ℝ) : ℝ :=
  |(-unitYR x0 y0 x1 y1) * (gx - x0) + unitXR x0 y0 x1 y1 * (gy - y0)|

/-! ### Concrete inputs used by counterexamples and witnesses -/

/-- Concrete input for claim C2: two instances, one landmark; instance 0 is
visible at (1, 2) and instance 1 has its landmark missing (NaN, NaN). -/
def c2pts : Fin 2 → Fin 1 → Pt :=
  fun i _ => if i = 0 then (F.fin 1, F.fin 2) else (F.nan, F.nan)

/-- Concrete input for the claim C8 witness: one instance with two landmarks
at (1, 2) and (3, 6). -/
def c8pts : Fin 1 → Fin 2 → Pt :=
  fun _ j => if j = 0 then (F.fin 1, F.fin 2) else (F.fin 3, F.fin 6)

/-- Concrete input for the claim C4 witness: one instance with landmarks at
(10, 10) and (20, 10) (the horizontal-edge scenario of the spec). -/
def c4pts : Fin 1 → Fin 2 → Pt :=
  fun _ j => if j = 0 then (F.fin 10, F.fin 10) else (F.fin 20, F.fin 10)

/-- The single directed edge 0 → 1 for the claim C4 and C7 witnesses. -/
def edge01 : Fin 1 → Fin 2 × Fin 2 := fun _ => (0, 1)

/-- Concrete input for the claim C6 witness: one instance, landmark 0 at
(5, 5) and landmark 1 missing (NaN, NaN). -/
def c6pts : Fin 1 → Fin 2 → Pt :=
  fun _ l => if l = 0 then (F.fin 5, F.fin 5) else (F.nan, F.nan)

/-- Concrete input for the claim C7 witness: one instance whose two landmarks
coincide at (1, 1), so the edge 0 → 1 has zero length. -/
def c7pts : Fin 1 → Fin 2 → Pt := fun _ _ => (F.fin 1, F.fin 1)

/-- Concrete input for the claim C9 witness: a single landmark at (5, 5). -/
def c9pts : Fin 1 → Fin 1 → Pt := fun _ _ => (F.fin 5, F.fin 5)

/-! ### Helper lemmas -/

namespace F

lemma add_def (a b : F) : a + b = F.add a b := rfl

lemma zero_def : (0 : F) = F.fin 0 := rfl

@[simp] lemma fin_add_fin (x y : ℝ) : F.fin x + F.fin y = F.fin (x + y) := rfl

@[simp] lemma nan_add (a : F) : F.nan + a = F.nan := rfl

@[simp] lemma add_nan (a : F) : a + F.nan = F.nan := by cases a <;> rfl

@[simp] lemma fin_sub_fin (x y : ℝ) : F.fin x - F.fin y = F.fin (x - y) := rfl

@[simp] lemma nan_sub (a : F) : F.nan - a = F.nan := rfl

@[simp] lemma sub_nan (a : F) : a - F.nan = F.nan := by cases a <;> rfl

@[simp] lemma fin_mul_fin (x y : ℝ) : F.fin x * F.fin y = F.fin (x * y) := rfl

@[simp] lemma nan_mul (a : F) : F.nan * a = F.nan := rfl

@[simp] lemma mul_nan (a : F) : a * F.nan = F.nan := by cases a <;> rfl

lemma fin_div_fin {y : ℝ} (x : ℝ) (hy : y ≠ 0) :
    F.fin x / F.fin y = F.fin (x / y) := by
  show F.div _ _ = _
  simp [F.div, hy]

@[simp] lemma fin_div_fin_zero (x : ℝ) : F.fin x / F.fin 0 = F.nan := by
  show F.div _ _ = _
  simp [F.div]

@[simp] lemma nan_div (a : F) : F.nan / a = F.nan := rfl

@[simp] lemma div_nan (a : F) : a / F.nan = F.nan := by cases a <;> rfl

@[simp] lemma neg_fin (x : ℝ) : -F.fin x = F.fin (-x) := rfl

@[simp] lemma neg_nan : -F.nan = F.nan := rfl

@[simp] lemma absF_fin (x : ℝ) : F.absF (F.fin x) = F.fin |x| := rfl

@[simp] lemma absF_nan : F.absF F.nan = F.nan := rfl

lemma sqrtF_fin {x : ℝ} (hx : ¬x < 0) :
    F.sqrtF (F.fin x) = F.fin (Real.sqrt x) := by simp [F.sqrtF, hx]

@[simp] lemma sqrtF_nan : F.sqrtF F.nan = F.nan := rfl

@[simp] lemma expF_fin (x : ℝ) : F.expF (F.fin x) = F.fin (Real.exp x) := rfl

@[simp] lemma expF_nan : F.expF F.nan = F.nan := rfl

@[simp] lemma le_fin_fin (x y : ℝ) : F.le (F.fin x) (F.fin y) = decide (x ≤ y) := rfl

@[simp] lemma le_nan_right (a : F) : F.le a F.nan = false := by cases a <;> rfl

@[simp] lemma le_nan_left (a : F) : F.le F.nan a = false := rfl

@[simp] lemma whereNanZero_fin (x : ℝ) : F.whereNanZero (F.fin x) = F.fin x := rfl

@[simp] lemma whereNanZero_nan : F.whereNanZero F.nan = F.fin 0 := rfl

@[simp] lemma whereNanZero_isFinite (a : F) : (F.whereNanZero a).isFinite = true := by
  cases a <;> rfl

@[simp] lemma isFinite_fin (x : ℝ) : (F.fin x).isFinite = true := rfl

lemma isFinite_add {a b : F} (ha : a.isFinite = true) (hb : b.isFinite = true) :
    (a + b).isFinite = true := by
  cases a <;> cases b <;> simp_all [add_def, F.add, F.isFinite]

end F

lemma le_foldr_max {a : ℕ} (l : List ℕ) (b : ℕ) (h : a ∈ l) :
    a ≤ l.foldr max b := by
  induction l with
  | nil => simp at h
  | cons c cs ih =>
    rcases List.mem_cons.mp h with rfl | h2
    · exact le_max_left _ _
    · exact le_trans (ih h2) (le_max_right _ _)

lemma foldr_max_eq_zero (l : List ℕ) (h : ∀ a ∈ l, a = 0) :
    l.foldr max 0 = 0 := by
  induction l with
  | nil => rfl
  | cons c cs ih =>
    have hc : c = 0 := h c (List.mem_cons_self c cs)
    have hcs := ih fun a ha => h a (List.mem_cons_of_mem _ ha)
    simp [hc, hcs]

lemma foldr_max_all_eq (c : ℕ) (l : List ℕ) (hl : l ≠ [])
    (h : ∀ a ∈ l, a = c) : l.foldr max 0 = c := by
  induction l with
  | nil => exact absurd rfl hl
  | cons d ds ih =>
    have hd : d = c := h d (List.mem_cons_self d ds)
    by_cases hds : ds = []
    · subst hds; simp [hd]
    · have := ih hds fun a ha => h a (List.mem_cons_of_mem _ ha)
      simp [this, hd]

lemma filterMap_eq_map_of_some {α β : Type} (f : α → β) (g : α → Option β)
    (l : List α) (h : ∀ a ∈ l, g a = some (f a)) : l.filterMap g = l.map f := by
  induction l with
  | nil => rfl
  | cons d ds ih =>
    simp [List.filterMap_cons, h d (List.mem_cons_self _ _),
      ih fun a ha => h a (List.mem_cons_of_mem _ ha)]

lemma foldl_min_sub (c : ℝ) (xs : List ℝ) :
    ∀ x : ℝ, ((xs.map fun v => v - c).foldl min (x - c)) = xs.foldl min x - c := by
  induction xs with
  | nil => intro x; rfl
  | cons y ys ih =>
    intro x
    simp only [List.map_cons, List.foldl_cons]
    rw [min_sub_sub_right]
    exact ih (min x y)

lemma foldl_max_sub (c : ℝ) (xs : List ℝ) :
    ∀ x : ℝ, ((xs.map fun v => v - c).foldl max (x - c)) = xs.foldl max x - c := by
  induction xs with
  | nil => intro x; rfl
  | cons y ys ih =>
    intro x
    simp only [List.map_cons, List.foldl_cons]
    rw [max_sub_sub_right]
    exact ih (max x y)

lemma listMin_map_sub (l : List ℝ) (c : ℝ) (hl : l ≠ []) :
    listMin (l.map fun v => v - c) = listMin l - c := by
  cases l with
  | nil => exact absurd rfl hl
  | cons x xs =>
    simp only [List.map_cons, listMin]
    exact foldl_min_sub c xs x

lemma listMax_map_sub (l : List ℝ) (c : ℝ) (hl : l ≠ []) :
    listMax (l.map fun v => v - c) = listMax l - c := by
  cases l with
  | nil => exact absurd rfl hl
  | cons x xs =>
    simp only [List.map_cons, listMax]
    exact foldl_max_sub c xs x

lemma maskedRow_fin (x y : ℝ) : maskedRow (F.fin x, F.fin y) = [x, y] := rfl

lemma maskedRow_nan : maskedRow (F.nan, F.nan) = [] := rfl

lemma colVals_fin {n k : ℕ} (points : Fin n → Fin k → Pt) (i : Fin n)
    (X Y : Fin k → ℝ) (h : ∀ t, points i t = (F.fin (X t), F.fin (Y t))) :
    colVals points i 0 = (List.finRange k).map X ∧
      colVals points i 1 = (List.finRange k).map Y := by
  constructor <;>
  · apply filterMap_eq_map_of_some
    intro t _
    rw [h t]
    rfl

lemma rowWidth_fin {n k : ℕ} (points : Fin n → Fin k → Pt) (i : Fin n)
    (X Y : Fin k → ℝ) (hk : k ≠ 0)
    (h : ∀ t, points i t = (F.fin (X t), F.fin (Y t))) :
    rowWidth points i = 2 := by
  apply foldr_max_all_eq
  · intro hmap
    rw [List.map_eq_nil_iff] at hmap
    exact hk (List.finRange_eq_nil.mp hmap)
  · intro a ha
    rcases List.mem_map.mp ha with ⟨t, _, rfl⟩
    rw [h t]
    rfl

lemma get_bbox_centroid_fin {n k : ℕ} (points : Fin n → Fin k → Pt)
    (i : Fin n) (X Y : Fin k → ℝ) (hk : k ≠ 0)
    (h : ∀ t, points i t = (F.fin (X t), F.fin (Y t))) :
    get_bbox_centroid points i 0 =
        0.5 * (listMax ((List.finRange k).map X) +
          listMin ((List.finRange k).map X)) ∧
      get_bbox_centroid points i 1 =
        0.5 * (listMax ((List.finRange k).map Y) +
          listMin ((List.finRange k).map Y)) := by
  have hc := colVals_fin points i X Y h
  unfold get_bbox_centroid centroidRow
  rw [rowWidth_fin points i X Y hk h,
    show List.range 2 = [0, 1] from rfl]
  simp only [List.map_cons, List.map_nil, List.getD_cons_zero,
    List.getD_cons_succ]
  rw [hc.1, hc.2]
  exact ⟨rfl, rfl⟩

/-! ### Claim theorems -/

/-- Claim C1 (status: code_bug).  `instance_crop` never returns the documented
`(instance_images, instance_points, instance_ctr_points)` tuple: with
`use_ctr_node=True` it reads the unbound variable `instance_points`
(UnboundLocalError), and with `use_ctr_node=False` its call
`get_centered_bboxes(centroids, (box_height, box_width))` passes a tuple as
`box_width` and omits the required `box_height` argument (TypeError).  Both
execution paths raise, for every input. -/
theorem c1_instance_crop_always_raises {n k : ℕ} (points : Fin n → Fin k → Pt)
    (box_height box_width ctr_node_ind : ℕ) :
    instance_crop points box_height box_width true ctr_node_ind =
        Except.error PyError.unboundLocalError ∧
      instance_crop points box_height box_width false ctr_node_ind =
        Except.error PyError.typeError :=
  ⟨rfl, rfl⟩

/-- Claim C2, counterexample.  The claim says the centroid of an all-NaN
instance is NaN ("not silently replaced by zero").  In fact the masked ragged
row of the all-NaN instance is empty, so its centroid row is empty and
`.to_tensor()` zero-pads it: `get_bbox_centroid` returns `(0, 0)` for
instance 1 (the output tensor has width 2 because instance 0 is visible) —
the degenerate value is exactly the silent zero the claim rules out, and no
NaN appears anywhere in the output. -/
theorem c2_all_nan_centroid_counterexample :
    get_bbox_centroid c2pts 1 0 = 0 ∧ get_bbox_centroid c2pts 1 1 = 0 ∧
      2 ≤ centroidWidth c2pts :=
  ⟨rfl, rfl, by decide⟩

/-- Claim C2, amended.  For a points tensor in which instance `i` has all
landmarks NaN while some instance has a fully visible landmark,
`get_bbox_centroid` computes (without error) an output tensor of width at
least 2 whose row for instance `i` is all zeros — zero padding from
`.to_tensor()` on the empty ragged row — rather than NaN. -/
theorem c2_all_nan_centroid_zero {n k : ℕ} (points : Fin n → Fin k → Pt)
    (i i2 : Fin n) (j2 : Fin k) (x2 y2 : ℝ)
    (hnan : ∀ t, points i t = (F.nan, F.nan))
    (hvis : points i2 j2 = (F.fin x2, F.fin y2)) :
    (∀ m, get_bbox_centroid points i m = 0) ∧ 2 ≤ centroidWidth points := by
  constructor
  · intro m
    have hw : rowWidth points i = 0 := by
      apply foldr_max_eq_zero
      intro a ha
      rcases List.mem_map.mp ha with ⟨t, _, rfl⟩
      rw [hnan t]
      rfl
    unfold get_bbox_centroid centroidRow
    rw [hw]
    simp [List.getD]
  · have h2 : (maskedRow (points i2 j2)).length = 2 := by rw [hvis]; rfl
    have hr2 : 2 ≤ rowWidth points i2 :=
      le_foldr_max _ _ (List.mem_map.mpr ⟨j2, List.mem_finRange j2, h2⟩)
    have hlen : (centroidRow points i2).length = rowWidth points i2 := by
      simp [centroidRow]
    exact le_trans (hlen ▸ hr2)
      (le_foldr_max _ _ (List.mem_map.mpr ⟨i2, List.mem_finRange i2, rfl⟩))

/-- Claim C2, witness for the amended theorem, at the concrete input
`c2pts`. -/
theorem c2_all_nan_centroid_zero_witness :
    get_bbox_centroid c2pts 1 0 = 0 ∧ 2 ≤ centroidWidth c2pts := by
  have h := c2_all_nan_centroid_zero c2pts 1 0 0 1 2 (fun t => rfl) rfl
  exact ⟨h.1 0, h.2⟩

/-- Claim C3, counterexample.  The grid of `make_confmaps` / `make_pafs` for
`image_height = 3` and `output_scale = 1/2` is `tf.range(0, 3, 2.0) = [0, 2]`,
of length 2 = ceil(3 * 1/2), whereas floor(3 * 1/2) = 1: the output spatial
dimension is not `floor(input_dimension * output_scale)`. -/
theorem c3_grid_floor_counterexample :
    confmapsHeight 3 (1 / 2) = 2 ∧ pafsAxis2Len 3 (1 / 2) = 2 ∧
      ⌊(3 : ℝ) * (1 / 2)⌋₊ = 1 ∧
      confmapsHeight 3 (1 / 2) ≠ ⌊(3 : ℝ) * (1 / 2)⌋₊ := by
  have hceil : ⌈(3 : ℝ) / (1 / (1 / 2))⌉₊ = 2 := by
    rw [Nat.ceil_eq_iff (by norm_num)]
    norm_num
  have hfloor : ⌊(3 : ℝ) * (1 / 2)⌋₊ = 1 := by
    rw [Nat.floor_eq_iff (by norm_num)]
    norm_num
  refine ⟨?_, ?_, hfloor, ?_⟩
  · show rangeLen ((3 : ℕ) : ℝ) (1 / (1 / 2)) = 2
    unfold rangeLen
    push_cast
    exact hceil
  · show rangeLen ((3 : ℕ) : ℝ) (1 / (1 / 2)) = 2
    unfold rangeLen
    push_cast
    exact hceil
  · intro hcontra
    rw [hfloor] at hcontra
    have : rangeLen ((3 : ℕ) : ℝ) (1 / (1 / 2)) = 2 := by
      unfold rangeLen
      push_cast
      exact hceil
    rw [show confmapsHeight 3 (1 / 2) = rangeLen ((3 : ℕ) : ℝ) (1 / (1 / 2))
      from rfl, this] at hcontra
    exact absurd hcontra (by norm_num)

/-- Claim C3, amended.  For every image dimension and every
`output_scale > 0`, the output spatial dimensions of `make_confmaps` and
`make_pafs` equal `ceil(input_dimension * output_scale)` — the number of
multiples of `1/output_scale` in `[0, input_dimension)`, per the
`tf.range(0, dim, 1/output_scale)` grid construction — which equals
`floor(input_dimension * output_scale)` only when that product is an
integer. -/
theorem c3_grid_size_ceil (H W : ℕ) (s : ℝ) (hs : 0 < s) :
    confmapsHeight H s = ⌈(H : ℝ) * s⌉₊ ∧ confmapsWidth W s = ⌈(W : ℝ) * s⌉₊ ∧
      pafsAxis1Len W s = ⌈(W : ℝ) * s⌉₊ ∧ pafsAxis2Len H s = ⌈(H : ℝ) * s⌉₊ ∧
      ∀ m : ℕ, m < confmapsHeight H s ↔ (m : ℝ) * (1 / s) < (H : ℝ) := by
  have key : ∀ D : ℕ, rangeLen (D : ℝ) (1 / s) = ⌈(D : ℝ) * s⌉₊ := by
    intro D
    unfold rangeLen
    rw [one_div, div_eq_mul_inv, inv_inv]
  refine ⟨key H, key W, key W, key H, ?_⟩
  intro m
  rw [show confmapsHeight H s = ⌈(H : ℝ) * s⌉₊ from key H, Nat.lt_ceil,
    mul_one_div, div_lt_iff₀ hs]

/-- Claim C3, witness for the amended theorem at `H = 3`,
`output_scale = 1/2`. -/
theorem c3_grid_size_ceil_witness :
    (0 : ℝ) < 1 / 2 ∧ confmapsHeight 3 (1 / 2) = ⌈(3 : ℝ) * (1 / 2)⌉₊ ∧
      (1 < confmapsHeight 3 (1 / 2) ↔ (1 : ℝ) * (1 / (1 / 2)) < (3 : ℝ)) := by
  have h := c3_grid_size_ceil 3 3 (1 / 2) (by norm_num)
  refine ⟨by norm_num, ?_, ?_⟩
  · have := h.1
    push_cast at this
    exact this
  · have := h.2.2.2.2 1
    push_cast at this
    exact this

/-- Claim C8 (status: confirmed).  For every NaN-free points tensor and box
dimensions `w`, `h`, translating the points into the boxes produced by
`get_centered_bboxes(get_bbox_centroid(points), w, h)` yields, for each
instance `i`, box-local coordinates (at box `i`, instance `i`) whose own
bounding-box centroid is exactly `(w/2, h/2)` (exact equality in the real
model, hence within any floating tolerance). -/
theorem c8_roundtrip_centroid {n k : ℕ} (points : Fin n → Fin k → Pt)
    (X Y : Fin n → Fin k → ℝ) (w h : ℝ) (hk : k ≠ 0)
    (hfin : ∀ i t, points i t = (F.fin (X i t), F.fin (Y i t))) (i : Fin n) :
    get_bbox_centroid
        (fun (_ : Fin 1) t => roundTripBoxPoints points w h i i t) 0 0 =
        w / 2 ∧
      get_bbox_centroid
        (fun (_ : Fin 1) t => roundTripBoxPoints points w h i i t) 0 1 =
        h / 2 := by
  have hXfin := get_bbox_centroid_fin points i (X i) (Y i) hk fun t => hfin i t
  have hdiag : ∀ t, (fun (_ : Fin 1) t => roundTripBoxPoints points w h i i t)
      (0 : Fin 1) t =
      (F.fin (X i t - (get_bbox_centroid points i 0 - 0.5 * w)),
       F.fin (Y i t - (get_bbox_centroid points i 1 - 0.5 * h))) := by
    intro t
    show roundTripBoxPoints points w h i i t = _
    unfold roundTripBoxPoints pts_to_bbox get_centered_bboxes get_bbox_offsets
    rw [hfin i t]
    rfl
  obtain ⟨hd0, hd1⟩ :=
    get_bbox_centroid_fin
      (fun (_ : Fin 1) t => roundTripBoxPoints points w h i i t) 0
      (fun t => X i t - (get_bbox_centroid points i 0 - 0.5 * w))
      (fun t => Y i t - (get_bbox_centroid points i 1 - 0.5 * h)) hk hdiag
  have hneX : (List.finRange k).map (X i) ≠ [] := by
    simp only [ne_eq, List.map_eq_nil_iff, List.finRange_eq_nil]
    exact hk
  have hneY : (List.finRange k).map (Y i) ≠ [] := by
    simp only [ne_eq, List.map_eq_nil_iff, List.finRange_eq_nil]
    exact hk
  constructor
  · rw [hd0,
      show (List.finRange k).map
          (fun t => X i t - (get_bbox_centroid points i 0 - 0.5 * w)) =
        ((List.finRange k).map (X i)).map
          (fun v => v - (get_bbox_centroid points i 0 - 0.5 * w)) from by
        rw [List.map_map]
        rfl,
      listMax_map_sub _ _ hneX, listMin_map_sub _ _ hneX]
    linarith [hXfin.1]
  · rw [hd1,
      show (List.finRange k).map
          (fun t => Y i t - (get_bbox_centroid points i 1 - 0.5 * h)) =
        ((List.finRange k).map (Y i)).map
          (fun v => v - (get_bbox_centroid points i 1 - 0.5 * h)) from by
        rw [List.map_map]
        rfl,
      listMax_map_sub _ _ hneY, listMin_map_sub _ _ hneY]
    linarith [hXfin.2]

/-- Claim C8, witness: the round trip with boxes of width and height 4 puts
the box-local centroid at (2, 2). -/
theorem c8_roundtrip_centroid_witness :
    get_bbox_centroid
        (fun (_ : Fin 1) t => roundTripBoxPoints c8pts 4 4 0 0 t) 0 0 =
        4 / 2 ∧
      get_bbox_centroid
        (fun (_ : Fin 1) t => roundTripBoxPoints c8pts 4 4 0 0 t) 0 1 =
        4 / 2 :=
  c8_roundtrip_centroid c8pts (fun _ j => if j = 0 then 1 else 3)
    (fun _ j => if j = 0 then 2 else 6) 4 4 (by decide)
    (fun i t => by fin_cases i <;> fin_cases t <;> rfl) 0

/-- Claim C10 (status: confirmed).  For array (non-list) points input,
`make_points_dataset` never returns a dataset: it invokes the nonexistent
attribute `tf.tensor_slices` and raises AttributeError even for a well-formed
rank-4 array. -/
theorem c10_points_dataset_array_branch_fails (a : List ℕ) :
    make_points_dataset (PointsInput.arr a) =
      Except.error PyError.attributeError := rfl

lemma make_confmaps_nan {n k : ℕ} (points : Fin n → Fin k → Pt)
    (s sigma : ℝ) (i : Fin n) (a b : ℕ) (c : Fin k)
    (hp : points i c = (F.nan, F.nan)) :
    make_confmaps points s sigma i a b c = F.fin 0 := by
  unfold make_confmaps
  rw [hp]
  simp

lemma make_confmaps_fin {n k : ℕ} (points : Fin n → Fin k → Pt)
    (s sigma : ℝ) (i : Fin n) (a b : ℕ) (c : Fin k) (x y : ℝ)
    (hsigma : sigma ≠ 0) (hp : points i c = (F.fin x, F.fin y)) :
    make_confmaps points s sigma i a b c =
      F.fin (Real.exp (-((gridVal s b - x) ^ 2 + (gridVal s a - y) ^ 2) /
        (2 * sigma ^ 2))) := by
  unfold make_confmaps
  rw [hp]
  have h2 : (2 : ℝ) * sigma ^ 2 ≠ 0 :=
    mul_ne_zero two_ne_zero (pow_ne_zero 2 hsigma)
  simp only [F.fin_sub_fin, F.fin_mul_fin, F.fin_add_fin, F.neg_fin,
    F.fin_div_fin _ h2, F.expF_fin, F.whereNanZero_fin]
  congr 2
  ring

/-- Claim C6 (status: confirmed).  If landmark `c0` of instance `i` is NaN in
both coordinates, `make_confmaps` returns an identically zero
`[i, :, :, c0]` slice, while every other (instance, channel) slice equals the
Gaussian computed from its finite coordinates, unaffected by the missing
landmark; the computation is total (no exception). -/
theorem c6_confmap_nan_channel_zero {n k : ℕ} (points : Fin n → Fin k → Pt)
    (s sigma : ℝ) (i : Fin n) (c0 : Fin k) (X Y : Fin n → Fin k → ℝ)
    (hsigma : 0 < sigma)
    (hnan : points i c0 = (F.nan, F.nan))
    (hfin : ∀ j l, ¬(j = i ∧ l = c0) →
      points j l = (F.fin (X j l), F.fin (Y j l))) :
    (∀ a b : ℕ, make_confmaps points s sigma i a b c0 = F.fin 0) ∧
      ∀ j l, ¬(j = i ∧ l = c0) → ∀ a b : ℕ,
        make_confmaps points s sigma j a b l =
          F.fin (Real.exp (-((gridVal s b - X j l) ^ 2 +
            (gridVal s a - Y j l) ^ 2) / (2 * sigma ^ 2))) := by
  constructor
  · intro a b
    exact make_confmaps_nan points s sigma i a b c0 hnan
  · intro j l hjl a b
    exact make_confmaps_fin points s sigma j a b l (X j l) (Y j l)
      (ne_of_gt hsigma) (hfin j l hjl)

/-- Claim C6, witness at the concrete input `c6pts` (landmark 0 at (5, 5),
landmark 1 missing), with `sigma = 1`, `output_scale = 1`, at grid index
`(3, 7)`. -/
theorem c6_confmap_nan_channel_zero_witness :
    make_confmaps c6pts 1 1 0 3 7 1 = F.fin 0 ∧
      make_confmaps c6pts 1 1 0 3 7 0 =
        F.fin (Real.exp (-((gridVal 1 7 - 5) ^ 2 + (gridVal 1 3 - 5) ^ 2) /
          (2 * 1 ^ 2))) := by
  have h := c6_confmap_nan_channel_zero c6pts 1 1 0 1
    (fun _ _ => 5) (fun _ _ => 5) (by norm_num) rfl
    (fun j l hjl => by
      fin_cases j <;> fin_cases l
      · rfl
      · exact absurd ⟨rfl, rfl⟩ hjl)
  exact ⟨h.1 3 7, h.2 0 0 (by decide) 3 7⟩

/-- Claim C9 (status: confirmed).  For a landmark with finite coordinates
`(x, y)`, the `make_confmaps` value at grid index `(a, b)` of that
instance/channel slice is exactly
`exp(-((gx - x)^2 + (gy - y)^2) / (2 * sigma^2))` for the grid point
`(gx, gy) = (gridVal s b, gridVal s a)`; in particular, at a grid point
exactly at the landmark the value is exactly 1. -/
theorem c9_confmap_gaussian_value {n k : ℕ} (points : Fin n → Fin k → Pt)
    (s sigma x y : ℝ) (i : Fin n) (c : Fin k) (a b : ℕ)
    (hsigma : 0 < sigma) (hp : points i c = (F.fin x, F.fin y)) :
    make_confmaps points s sigma i a b c =
        F.fin (Real.exp (-((gridVal s b - x) ^ 2 + (gridVal s a - y) ^ 2) /
          (2 * sigma ^ 2))) ∧
      (gridVal s b = x → gridVal s a = y →
        make_confmaps points s sigma i a b c = F.fin 1) := by
  have h := make_confmaps_fin points s sigma i a b c x y (ne_of_gt hsigma) hp
  refine ⟨h, fun hx hy => ?_⟩
  rw [h, hx, hy]
  simp

/-- Claim C9, witness: a landmark at (5, 5) with `sigma = 1`,
`output_scale = 1`, evaluated at grid index `(5, 5)`, gives exactly 1. -/
theorem c9_confmap_gaussian_value_witness :
    make_confmaps c9pts 1 1 0 5 5 0 = F.fin 1 :=
  (c9_confmap_gaussian_value c9pts 1 1 5 5 0 0 5 5 (by norm_num) rfl).2
    (by norm_num [gridVal]) (by norm_num [gridVal])

lemma pafInst_eval {n k E : ℕ} (points : Fin n → Fin k → Pt)
    (edges : Fin E → Fin k × Fin k) (s t : ℝ) (i : Fin n) (a b : ℕ)
    (e : Fin E) (c : Fin 2) (x0 y0 x1 y1 : ℝ)
    (hsrc : points i (edges e).1 = (F.fin x0, F.fin y0))
    (hdst : points i (edges e).2 = (F.fin x1, F.fin y1))
    (hne : ¬(x1 = x0 ∧ y1 = y0)) :
    pafInst points edges s t i a b e c =
      F.fin ((if -t ≤ parallelDistR x0 y0 x1 y1 (gridVal s a) (gridVal s b) ∧
            parallelDistR x0 y0 x1 y1 (gridVal s a) (gridVal s b) ≤
              t + edgeLenR x0 y0 x1 y1 ∧
            perpDistR x0 y0 x1 y1 (gridVal s a) (gridVal s b) ≤ t
          then (1 : ℝ) else 0) *
        (if c = 0 then unitXR x0 y0 x1 y1 else unitYR x0 y0 x1 y1)) := by
  have hS : 0 < (x1 - x0) * (x1 - x0) + (y1 - y0) * (y1 - y0) := by
    rcases not_and_or.mp hne with h | h
    · have h1 : 0 < (x1 - x0) * (x1 - x0) :=
        mul_self_pos.mpr (sub_ne_zero.mpr h)
      nlinarith [mul_self_nonneg (y1 - y0)]
    · have h1 : 0 < (y1 - y0) * (y1 - y0) :=
        mul_self_pos.mpr (sub_ne_zero.mpr h)
      nlinarith [mul_self_nonneg (x1 - x0)]
  have hLne : Real.sqrt ((x1 - x0) * (x1 - x0) + (y1 - y0) * (y1 - y0)) ≠ 0 :=
    ne_of_gt (Real.sqrt_pos.mpr hS)
  simp only [pafInst, pafMask, parallelDistF, perpDistF, unitVec,
    perpUnitVec, edgeLenF, deltaPt, relGrid]
  simp only [hsrc, hdst]
  simp only [F.fin_sub_fin, F.fin_mul_fin, F.fin_add_fin]
  simp only [F.sqrtF_fin (not_lt.mpr hS.le)]
  simp only [F.fin_div_fin _ hLne, F.neg_fin, F.fin_mul_fin, F.fin_add_fin,
    F.fin_sub_fin, F.absF_fin, F.le_fin_fin]
  simp only [Bool.and_eq_true, decide_eq_true_eq, and_assoc]
  simp only [parallelDistR, perpDistR, unitXR, unitYR, edgeLenR]
  by_cases hc : c = 0
  · rw [if_pos hc, if_pos hc]
    simp only [F.fin_mul_fin, F.whereNanZero_fin]
  · rw [if_neg hc, if_neg hc]
    simp only [F.fin_mul_fin, F.whereNanZero_fin]

lemma pafInst_row {n m k E : ℕ} (P : Fin n → Fin k → Pt)
    (Q : Fin m → Fin k → Pt) (edges : Fin E → Fin k × Fin k) (s t : ℝ)
    (i : Fin n) (j : Fin m) (h : P i = Q j) (a b : ℕ) (e : Fin E) (c : Fin 2) :
    pafInst P edges s t i a b e c = pafInst Q edges s t j a b e c := by
  simp only [pafInst, pafMask, parallelDistF, perpDistF, unitVec,
    perpUnitVec, edgeLenF, deltaPt, relGrid]
  simp only [h]

/-- Claim C4 (status: confirmed).  For a single-instance points tensor whose
edge endpoints are finite and distinct, the `make_pafs` value at a grid pixel
for that edge equals the edge's unit parallel vector (source-to-destination)
exactly when the signed parallel distance is `≥ -distance_threshold` and
`≤ edge_length + distance_threshold` and the absolute perpendicular distance
is `≤ distance_threshold`; at every other pixel the value is zero. -/
theorem c4_paf_band_characterization {k E : ℕ} (points : Fin 1 → Fin k → Pt)
    (edges : Fin E → Fin k × Fin k) (s t : ℝ) (a b : ℕ) (e : Fin E)
    (c : Fin 2) (x0 y0 x1 y1 : ℝ)
    (hsrc : points 0 (edges e).1 = (F.fin x0, F.fin y0))
    (hdst : points 0 (edges e).2 = (F.fin x1, F.fin y1))
    (hne : ¬(x1 = x0 ∧ y1 = y0)) :
    ((-t ≤ parallelDistR x0 y0 x1 y1 (gridVal s a) (gridVal s b) ∧
        parallelDistR x0 y0 x1 y1 (gridVal s a) (gridVal s b) ≤
          t + edgeLenR x0 y0 x1 y1 ∧
        perpDistR x0 y0 x1 y1 (gridVal s a) (gridVal s b) ≤ t) →
      make_pafs points edges s t a b e c =
        F.fin (if c = 0 then unitXR x0 y0 x1 y1 else unitYR x0 y0 x1 y1)) ∧
    (¬(-t ≤ parallelDistR x0 y0 x1 y1 (gridVal s a) (gridVal s b) ∧
        parallelDistR x0 y0 x1 y1 (gridVal s a) (gridVal s b) ≤
          t + edgeLenR x0 y0 x1 y1 ∧
        perpDistR x0 y0 x1 y1 (gridVal s a) (gridVal s b) ≤ t) →
      make_pafs points edges s t a b e c = F.fin 0) := by
  have hsum : make_pafs points edges s t a b e c =
      pafInst points edges s t 0 a b e c :=
    Fin.sum_univ_one _
  have h := pafInst_eval points edges s t 0 a b e c x0 y0 x1 y1 hsrc hdst hne
  constructor <;> intro hP <;> rw [hsum, h] <;> simp [hP]

/-- Claim C4, witness at the spec scenario: a horizontal edge from (10, 10)
to (20, 10), `output_scale = 1`, `distance_threshold = 2`; the pixel at
(15, 10) carries the unit vector (1, 0), whose x component this witness
evaluates. -/
theorem c4_paf_band_witness :
    make_pafs c4pts edge01 1 2 15 10 0 0 = F.fin 1 := by
  have hL : edgeLenR 10 10 20 10 = 10 := by
    unfold edgeLenR
    rw [show ((20 : ℝ) - 10) * (20 - 10) + (10 - 10) * (10 - 10) = 10 ^ 2 by
        norm_num,
      Real.sqrt_sq (by norm_num : (0 : ℝ) ≤ 10)]
  have hcond : -2 ≤ parallelDistR 10 10 20 10 (gridVal 1 15) (gridVal 1 10) ∧
      parallelDistR 10 10 20 10 (gridVal 1 15) (gridVal 1 10) ≤
        2 + edgeLenR 10 10 20 10 ∧
      perpDistR 10 10 20 10 (gridVal 1 15) (gridVal 1 10) ≤ 2 := by
    unfold parallelDistR perpDistR unitXR unitYR gridVal
    rw [hL]
    norm_num
  have h := (c4_paf_band_characterization c4pts edge01 1 2 15 10 0 0
    10 10 20 10 rfl rfl (by norm_num)).1 hcond
  rw [h]
  norm_num [unitXR, hL]

/-- Claim C5 (status: confirmed).  `make_pafs` is additive over instances:
on two points tensors stacked along the instance axis it equals the
elementwise sum of the two separate outputs — instance contributions are
summed, not max-reduced. -/
theorem c5_paf_instance_additivity {n1 n2 k E : ℕ}
    (p1 : Fin n1 → Fin k → Pt) (p2 : Fin n2 → Fin k → Pt)
    (edges : Fin E → Fin k × Fin k) (s t : ℝ) (a b : ℕ) (e : Fin E)
    (c : Fin 2) :
    make_pafs (Fin.append p1 p2) edges s t a b e c =
      make_pafs p1 edges s t a b e c + make_pafs p2 edges s t a b e c := by
  unfold make_pafs
  rw [Fin.sum_univ_add]
  congr 1
  · exact Finset.sum_congr rfl fun x _ =>
      pafInst_row _ _ edges s t _ x (Fin.append_left p1 p2 x) a b e c
  · exact Finset.sum_congr rfl fun x _ =>
      pafInst_row _ _ edges s t _ x (Fin.append_right p1 p2 x) a b e c

/-- Claim C7 (status: confirmed).  When an edge has coinciding finite
endpoints (zero length), the division by the zero edge length produces NaN
(IEEE `0/0`), the NaN comparisons make the mask false, and the post-hoc
NaN-to-zero replacement turns the degenerate contribution into exactly zero,
so the `make_pafs` output is finite (no NaN and, in this real-valued model
where the only zero denominator comes with a zero numerator, no Inf)
everywhere. -/
theorem c7_paf_zero_length_edge_finite {n k E : ℕ}
    (points : Fin n → Fin k → Pt) (edges : Fin E → Fin k × Fin k) (s t : ℝ)
    (i0 : Fin n) (e0 : Fin E) (cx cy : ℝ)
    (hsrc : points i0 (edges e0).1 = (F.fin cx, F.fin cy))
    (hdst : points i0 (edges e0).2 = (F.fin cx, F.fin cy)) :
    (∀ (a b : ℕ) (e : Fin E) (c : Fin 2),
        (make_pafs points edges s t a b e c).isFinite = true) ∧
      ∀ (a b : ℕ) (c : Fin 2),
        pafInst points edges s t i0 a b e0 c = F.fin 0 := by
  constructor
  · intro a b e c
    unfold make_pafs
    refine Finset.sum_induction _ (fun v : F => v.isFinite = true)
      (fun u v hu hv => F.isFinite_add hu hv) rfl ?_
    intro x _
    unfold pafInst
    exact F.whereNanZero_isFinite _
  · intro a b c
    simp only [pafInst, pafMask, parallelDistF, perpDistF, unitVec,
      perpUnitVec, edgeLenF, deltaPt, relGrid]
    simp only [hsrc, hdst]
    simp [F.sqrtF]

/-- Claim C7, witness: both endpoints of the edge 0 → 1 at (1, 1). -/
theorem c7_paf_zero_length_edge_finite_witness :
    (make_pafs c7pts edge01 1 3 0 0 0 0).isFinite = true ∧
      pafInst c7pts edge01 1 3 0 0 0 0 0 = F.fin 0 := by
  have h := c7_paf_zero_length_edge_finite c7pts edge01 1 3 0 0 1 1 rfl rfl
  exact ⟨h.1 0 0 0 0, h.2 0 0 0⟩

end Sleap
